import Mathlib

/-!
Shallow embedding of the `dariusigna/object-storage` gateway (Go) in Lean 4.

The embedding covers:
* `internal/registry` — the consistent-hash-backed service registry
  (`ServiceMetadata`, `Registry`, `RegisterService`, `DeregisterService`,
  `MatchService`, `GetAllServices`);
* `internal/registrar` — the reconciliation pass (`refreshInstances`,
  `diffAndUpdateInstances`, `getServiceMetadataFromContainer`,
  `isValidServiceMetadata`);
* `internal/gateway` — retry-wrapped resolution (`getMatchingInstance`);
* `internal/app` — request-id validation (`validateID`).

Modelling conventions:
* Go maps become association lists with set-semantics operations
  (`mapSet` replaces, `mapRemove` deletes); map iteration order, which Go
  leaves unspecified, is modelled as list order — none of the proved
  properties depend on it.
* The external go-zero `ConsistentHash` is not part of the repository; it is
  modelled at the level of its contract: `Add`/`Remove` maintain the set of
  node identities (go-zero's `AddWithReplicas` first removes the node, so a
  repeated `Add` is a no-op on ring content), and `Get` returns no owner
  exactly when the ring is empty and otherwise a ring member selected
  deterministically from the key (a concrete executable selection stands in
  for the library's hash-based one; the claims below do not depend on which
  member is selected).
* Errors (`fmt.Errorf`) become `Except String` values holding the message.
* Mutation of the shared registry becomes explicit state passing; functions
  whose register/deregister calls the claims count also return a call trace.
-/

/-- ServiceMetadata represents the metadata of a Minio service
(`internal/registry`, struct `ServiceMetadata`). -/
structure ServiceMetadata where
  Name : String
  IPAddress : String
  AccessKey : String
  SecretKey : String
deriving DecidableEq

/-- Go zero value of `ServiceMetadata` (all fields empty strings). -/
def emptyServiceMetadata : ServiceMetadata :=
  { Name := "", IPAddress := "", AccessKey := "", SecretKey := "" }

/-- Model of `cmap.ConcurrentMap.Set`: insert or replace the entry for key `k`. -/
def mapSet (m : List (String × ServiceMetadata)) (k : String) (v : ServiceMetadata) :
    List (String × ServiceMetadata) :=
  (k, v) :: m.filter (fun p => p.1 != k)

/-- Model of `cmap.ConcurrentMap.Remove`: delete the entry for key `k` (no-op if absent). -/
def mapRemove (m : List (String × ServiceMetadata)) (k : String) :
    List (String × ServiceMetadata) :=
  m.filter (fun p => p.1 != k)

/-- Model of `cmap.ConcurrentMap.Get`: look up the entry for key `k`. -/
def mapGet (m : List (String × ServiceMetadata)) (k : String) : Option ServiceMetadata :=
  (m.find? (fun p => p.1 == k)).map (fun p => p.2)

/-- Model of go-zero `ConsistentHash.Add`: ensure identity `x` is on the ring
(go-zero first removes the node's virtual entries, then re-adds them, so the
ring content after `Add` does not depend on whether `x` was already present). -/
def ringAdd (ring : List String) (x : String) : List String :=
  x :: ring.filter (fun y => y != x)

/-- Model of go-zero `ConsistentHash.Remove`: remove identity `x` from the ring
(no-op if absent). -/
def ringRemove (ring : List String) (x : String) : List String :=
  ring.filter (fun y => y != x)

/-- Executable stand-in for the library's key hash (used only to pick a ring
member deterministically; the verified claims do not depend on its values). -/
def keyHash (s : String) : Nat :=
  s.data.foldl (fun h c => (h * 31 + c.toNat) % 4294967296) 0

/-- Model of go-zero `ConsistentHash.Get`: no owner exactly when the ring is
empty, otherwise a ring member selected deterministically from the key. -/
def ringGet (ring : List String) (key : String) : Option String :=
  match ring with
  | [] => none
  | n :: ns => some ((n :: ns).getD (keyHash key % (ns.length + 1)) n)

/-- Registry is a service registry (`internal/registry`, struct `Registry`):
a consistent-hash ring over node identities plus a map from identity
(IP address) to metadata. -/
structure Registry where
  ring : List String
  instances : List (String × ServiceMetadata)
deriving DecidableEq

/-- RegisterService registers a service (`internal/registry`):
`r.instances.Set(service.IPAddress, service); r.hash.Add(service.IPAddress)`. -/
def RegisterService (r : Registry) (service : ServiceMetadata) : Registry :=
  { ring := ringAdd r.ring service.IPAddress
    instances := mapSet r.instances service.IPAddress service }

/-- DeregisterService deregisters a service (`internal/registry`):
`r.instances.Remove(ipAddress); r.hash.Remove(ipAddress)`. -/
def DeregisterService (r : Registry) (ipAddress : String) : Registry :=
  { ring := ringRemove r.ring ipAddress
    instances := mapRemove r.instances ipAddress }

/-- Rendering of a `ServiceMetadata` value by Go's `fmt` `%s` verb:
`\x7bName IPAddress AccessKey SecretKey\x7d`. -/
def goFmtMeta (m : ServiceMetadata) : String :=
  "\x7b" ++ m.Name ++ " " ++ m.IPAddress ++ " " ++ m.AccessKey ++ " " ++ m.SecretKey ++ "\x7d"

/-- MatchService matches a service for a given key (`internal/registry`).
The second error branch formats the not-yet-assigned result variable
`service` (the Go zero value), exactly as the source does. -/
def MatchService (r : Registry) (key : String) : Except String ServiceMetadata :=
  match ringGet r.ring key with
  | none => .error ("could not match service for key " ++ key)
  | some serviceIP =>
    match mapGet r.instances serviceIP with
    | none => .error ("could not find service with IP " ++ goFmtMeta emptyServiceMetadata)
    | some service => .ok service

/-- GetAllServices returns all the services in the registry
(`internal/registry`): the values of the instances map. -/
def GetAllServices (r : Registry) : List ServiceMetadata :=
  r.instances.map (fun p => p.2)

/-- RegCall records one registry mutation issued during a reconciliation pass
(the calls to `RegisterService` / `DeregisterService` that
`diffAndUpdateInstances` makes, in order). -/
inductive RegCall where
  | register (service : ServiceMetadata)
  | deregister (ipAddress : String)
deriving DecidableEq

/-- diffAndUpdateInstances (`internal/registrar`): builds `currentSet` from the
IP addresses of `GetAllServices`, builds `newSet` as a map keyed by IP address
over `newInstances` (later duplicates overwrite earlier, as Go map assignment
does), registers every `newSet` entry whose IP is not in `currentSet`, then
deregisters every `currentSet` IP not in `newSet`. Returns the resulting
registry state and the trace of register/deregister calls. Go's `map`
iteration order is modelled as list order; a Go set (`map[string]struct{}`)
becomes a deduplicated list. -/
def diffAndUpdateInstances (r : Registry) (newInstances : List ServiceMetadata) :
    Registry × List RegCall :=
  let currentSet := ((GetAllServices r).map (fun i => i.IPAddress)).dedup
  let newSet := newInstances.foldl (fun m i => mapSet m i.IPAddress i) []
  let toRegister := newSet.filter (fun p => ! currentSet.contains p.1)
  let r1 := toRegister.foldl (fun s p => RegisterService s p.2) r
  let toDeregister := currentSet.filter (fun ip => ! newSet.any (fun p => p.1 == ip))
  let r2 := toDeregister.foldl (fun s ip => DeregisterService s ip) r1
  (r2, toRegister.map (fun p => RegCall.register p.2) ++
       toDeregister.map (fun ip => RegCall.deregister ip))

/-- ContainerInfo models the result of docker `ContainerInspect`
(`types.ContainerJSON`) restricted to the fields `refreshInstances` and
`getServiceMetadataFromContainer` read: the container name, its
`State.Status`, its environment entries, and the IP addresses of its networks
in iteration order. -/
structure ContainerInfo where
  name : String
  status : String
  env : List String
  networkIPs : List String
deriving DecidableEq

/-- MinioAccessKeyVarName (`internal/registrar`). -/
def MinioAccessKeyVarName : String := "MINIO_ACCESS_KEY"

/-- MinioSecretKeyVarName (`internal/registrar`). -/
def MinioSecretKeyVarName : String := "MINIO_SECRET_KEY"

/-- Split of one environment entry as `strings.SplitN(env, "=", 2)` does:
`none` when the entry has no `=` (Go's result then has length 1 and the entry
is skipped), otherwise the variable name and everything after the first `=`. -/
def splitEnvEntry (s : String) : Option (String × String) :=
  match s.splitOn "=" with
  | [] => none
  | [_] => none
  | k :: rest => some (k, String.intercalate "=" rest)

/-- getServiceMetadataFromContainer (`internal/registrar`): scans the
environment entries in order (later assignments overwrite earlier ones, as
the Go loop's `switch` does), takes the IP address of the first network
(Go map iteration modelled as list order), and assembles the metadata. -/
def getServiceMetadataFromContainer (c : ContainerInfo) : ServiceMetadata :=
  let keys := c.env.foldl (fun (acc : String × String) env =>
    match splitEnvEntry env with
    | none => acc
    | some kv =>
      if kv.1 = MinioAccessKeyVarName then (kv.2, acc.2)
      else if kv.1 = MinioSecretKeyVarName then (acc.1, kv.2)
      else acc) ("", "")
  { Name := c.name
    IPAddress := c.networkIPs.headD ""
    AccessKey := keys.1
    SecretKey := keys.2 }

/-- isValidServiceMetadata (`internal/registrar`): non-empty IP address,
access key and secret key. -/
def isValidServiceMetadata (serviceMetadata : ServiceMetadata) : Bool :=
  serviceMetadata.IPAddress != "" && serviceMetadata.AccessKey != "" &&
    serviceMetadata.SecretKey != ""

/-- Loop body of `refreshInstances` (`internal/registrar`): walks the listed
containers in order. Each element is the outcome of `ContainerInspect`
(`Except.error` models an inspect failure, which aborts the pass with that
error). A container that is not running, or whose derived metadata is
incomplete, is skipped; the rest contribute their metadata in order. -/
def collectAvailableInstances : List (Except String ContainerInfo) →
    Except String (List ServiceMetadata)
  | [] => .ok []
  | .error e :: _ => .error e
  | .ok info :: rest =>
    if info.status != "running" then collectAvailableInstances rest
    else
      let serviceMetadata := getServiceMetadataFromContainer info
      if ! isValidServiceMetadata serviceMetadata then collectAvailableInstances rest
      else (collectAvailableInstances rest).map (fun l => serviceMetadata :: l)

/-- refreshInstances (`internal/registrar`): `listing` models the outcome of
`ContainerList` (outer `Except`) and of each `ContainerInspect` (inner
`Except`). On a listing error, or on the first inspect error, the source
returns the error before calling `diffAndUpdateInstances`, so the registry
state is returned unchanged with an empty call trace; otherwise the diff runs
and its state, trace and no error are returned. -/
def refreshInstances (r : Registry)
    (listing : Except String (List (Except String ContainerInfo))) :
    Registry × List RegCall × Option String :=
  match listing with
  | .error e => (r, [], some e)
  | .ok containers =>
    match collectAvailableInstances containers with
    | .error e => (r, [], some e)
    | .ok availableInstances =>
      ((diffAndUpdateInstances r availableInstances).1,
       (diffAndUpdateInstances r availableInstances).2, none)

/-- Number of `RegisterService` calls in a trace whose metadata has identity `x`. -/
def registerCallCount (trace : List RegCall) (x : String) : Nat :=
  trace.countP (fun c => match c with
    | RegCall.register m => m.IPAddress == x
    | RegCall.deregister _ => false)

/-- Number of `DeregisterService` calls in a trace for identity `x`. -/
def deregisterCallCount (trace : List RegCall) (x : String) : Nat :=
  trace.countP (fun c => match c with
    | RegCall.register _ => false
    | RegCall.deregister ip => ip == x)

/-- Helper: key membership after a `mapSet`. -/
theorem mapSet_fst_mem (m : List (String × ServiceMetadata)) (k : String)
    (v : ServiceMetadata) (x : String) :
    x ∈ (mapSet m k v).map Prod.fst ↔ x = k ∨ x ∈ m.map Prod.fst := by
  simp only [mapSet, List.map_cons, List.mem_cons]
  constructor
  · rintro (h | h)
    · exact Or.inl h
    · right
      rcases List.mem_map.mp h with ⟨p, hp, hx⟩
      exact List.mem_map.mpr ⟨p, (List.mem_filter.mp hp).1, hx⟩
  · rintro (h | h)
    · exact Or.inl h
    · by_cases hxk : x = k
      · exact Or.inl hxk
      · right
        rcases List.mem_map.mp h with ⟨p, hp, hx⟩
        refine List.mem_map.mpr ⟨p, List.mem_filter.mpr ⟨hp, ?_⟩, hx⟩
        simp [hx, hxk]

/-- Helper: `mapSet` preserves distinctness of keys. -/
theorem mapSet_fst_nodup (m : List (String × ServiceMetadata)) (k : String)
    (v : ServiceMetadata) (h : (m.map Prod.fst).Nodup) :
    ((mapSet m k v).map Prod.fst).Nodup := by
  simp only [mapSet, List.map_cons]
  refine List.Nodup.cons ?_ (((List.filter_sublist m).map Prod.fst).nodup h)
  intro hk
  rcases List.mem_map.mp hk with ⟨p, hp, hx⟩
  have := (List.mem_filter.mp hp).2
  simp [hx] at this

/-- Helper: in a map built by `mapSet` keyed on `IPAddress`, every entry's key
is its value's `IPAddress`. -/
theorem mapSet_fst_inv (m : List (String × ServiceMetadata)) (v : ServiceMetadata)
    (h : ∀ p ∈ m, Prod.fst p = (Prod.snd p).IPAddress) :
    ∀ p ∈ mapSet m v.IPAddress v, Prod.fst p = (Prod.snd p).IPAddress := by
  intro p hp
  rcases List.mem_cons.mp hp with h1 | h1
  · rw [h1]
  · exact h p (List.mem_filter.mp h1).1

/-- Helper: key membership in the `newSet` fold. -/
theorem foldl_mapSet_fst_mem (l : List ServiceMetadata)
    (acc : List (String × ServiceMetadata)) (x : String) :
    x ∈ ((l.foldl (fun m i => mapSet m i.IPAddress i) acc).map Prod.fst) ↔
      x ∈ acc.map Prod.fst ∨ x ∈ l.map (fun i => i.IPAddress) := by
  induction l generalizing acc with
  | nil => simp
  | cons i t ih =>
    simp only [List.foldl_cons, ih, mapSet_fst_mem, List.map_cons, List.mem_cons]
    tauto

/-- Helper: the `newSet` fold keeps keys distinct. -/
theorem foldl_mapSet_fst_nodup (l : List ServiceMetadata)
    (acc : List (String × ServiceMetadata)) (h : (acc.map Prod.fst).Nodup) :
    ((l.foldl (fun m i => mapSet m i.IPAddress i) acc).map Prod.fst).Nodup := by
  induction l generalizing acc with
  | nil => exact h
  | cons i t ih => exact ih _ (mapSet_fst_nodup _ _ _ h)

/-- Helper: every entry of the `newSet` fold has key equal to its value's
`IPAddress`. -/
theorem foldl_mapSet_fst_inv (l : List ServiceMetadata)
    (acc : List (String × ServiceMetadata))
    (h : ∀ p ∈ acc, Prod.fst p = (Prod.snd p).IPAddress) :
    ∀ p ∈ l.foldl (fun m i => mapSet m i.IPAddress i) acc,
      Prod.fst p = (Prod.snd p).IPAddress := by
  induction l generalizing acc with
  | nil => exact h
  | cons i t ih => exact ih _ (mapSet_fst_inv _ _ h)

/-- Helper: the call trace of `diffAndUpdateInstances`, unfolded. -/
theorem diffAndUpdateInstances_snd (r : Registry) (newInstances : List ServiceMetadata) :
    (diffAndUpdateInstances r newInstances).2 =
      ((newInstances.foldl (fun m i => mapSet m i.IPAddress i) []).filter
          (fun p => ! (((GetAllServices r).map (fun i => i.IPAddress)).dedup).contains p.1)).map
        (fun p => RegCall.register p.2) ++
      ((((GetAllServices r).map (fun i => i.IPAddress)).dedup).filter
          (fun ip => ! (newInstances.foldl (fun m i => mapSet m i.IPAddress i) []).any
            (fun p => p.1 == ip))).map
        (fun ip => RegCall.deregister ip) := rfl

/-- Helper: the registry state produced by `diffAndUpdateInstances`, unfolded. -/
theorem diffAndUpdateInstances_fst (r : Registry) (newInstances : List ServiceMetadata) :
    (diffAndUpdateInstances r newInstances).1 =
      ((((GetAllServices r).map (fun i => i.IPAddress)).dedup).filter
          (fun ip => ! (newInstances.foldl (fun m i => mapSet m i.IPAddress i) []).any
            (fun p => p.1 == ip))).foldl (fun s ip => DeregisterService s ip)
        (((newInstances.foldl (fun m i => mapSet m i.IPAddress i) []).filter
            (fun p => ! (((GetAllServices r).map (fun i => i.IPAddress)).dedup).contains p.1)).foldl
          (fun s p => RegisterService s p.2) r) := rfl

/-- Helper: register-call count over a reconciliation trace, for any key-map
`ns2` with distinct keys consistent with the metadata and any current set. -/
theorem registerCallCount_trace (ns2 : List (String × ServiceMetadata)) (cur : List String)
    (x : String) (hinv : ∀ p ∈ ns2, Prod.fst p = (Prod.snd p).IPAddress)
    (hnd : (ns2.map Prod.fst).Nodup) :
    registerCallCount
      ((ns2.filter (fun p => ! cur.contains p.1)).map (fun p => RegCall.register p.2) ++
       (cur.filter (fun ip => ! ns2.any (fun p => p.1 == ip))).map
         (fun ip => RegCall.deregister ip)) x =
      if x ∈ ns2.map Prod.fst ∧ x ∉ cur then 1 else 0 := by
  unfold registerCallCount
  rw [List.countP_append, List.countP_map, List.countP_map]
  simp only [Function.comp_def]
  have h0 : List.countP (fun ip => false)
      (cur.filter (fun ip => ! ns2.any (fun p => p.1 == ip))) = 0 := by
    simp [List.countP_eq_zero]
  rw [h0, Nat.add_zero]
  have hcg : List.countP (fun p => (Prod.snd p).IPAddress == x)
        (ns2.filter (fun p => ! cur.contains p.1)) =
      List.countP (fun p => Prod.fst p == x) (ns2.filter (fun p => ! cur.contains p.1)) := by
    apply List.countP_congr
    intro p hp
    rw [hinv p (List.mem_filter.mp hp).1]
  rw [hcg]
  have hcount : List.countP (fun p => Prod.fst p == x)
        (ns2.filter (fun p => ! cur.contains p.1)) =
      ((ns2.filter (fun p => ! cur.contains p.1)).map Prod.fst).count x := by
    rw [List.count_eq_countP, List.countP_map]
    rfl
  rw [hcount]
  have hndf : (((ns2.filter (fun p => ! cur.contains p.1)).map Prod.fst)).Nodup :=
    hnd.sublist ((List.filter_sublist ns2).map Prod.fst)
  by_cases hc : x ∈ ns2.map Prod.fst ∧ x ∉ cur
  · rw [if_pos hc]
    apply List.count_eq_one_of_mem hndf
    obtain ⟨p, hp, hfst⟩ := List.mem_map.mp hc.1
    refine List.mem_map.mpr ⟨p, List.mem_filter.mpr ⟨hp, ?_⟩, hfst⟩
    simp [hfst, hc.2]
  · rw [if_neg hc]
    apply List.count_eq_zero_of_not_mem
    intro hmem
    obtain ⟨p, hp, hfst⟩ := List.mem_map.mp hmem
    have hf := List.mem_filter.mp hp
    apply hc
    refine ⟨List.mem_map.mpr ⟨p, hf.1, hfst⟩, ?_⟩
    have h2 := hf.2
    rw [hfst] at h2
    simpa using h2

/-- Helper: deregister-call count over a reconciliation trace, for any current
set `cur` without duplicates. -/
theorem deregisterCallCount_trace (ns2 : List (String × ServiceMetadata)) (cur : List String)
    (x : String) (hndc : cur.Nodup) :
    deregisterCallCount
      ((ns2.filter (fun p => ! cur.contains p.1)).map (fun p => RegCall.register p.2) ++
       (cur.filter (fun ip => ! ns2.any (fun p => p.1 == ip))).map
         (fun ip => RegCall.deregister ip)) x =
      if x ∈ cur ∧ x ∉ ns2.map Prod.fst then 1 else 0 := by
  unfold deregisterCallCount
  rw [List.countP_append, List.countP_map, List.countP_map]
  simp only [Function.comp_def]
  have h0 : List.countP (fun p => false)
      (ns2.filter (fun p => ! cur.contains p.1)) = 0 := by
    simp [List.countP_eq_zero]
  rw [h0, Nat.zero_add]
  have hcount : List.countP (fun ip => ip == x)
        (cur.filter (fun ip => ! ns2.any (fun p => p.1 == ip))) =
      (cur.filter (fun ip => ! ns2.any (fun p => p.1 == ip))).count x := by
    rw [List.count_eq_countP]
  rw [hcount]
  have hndf : (cur.filter (fun ip => ! ns2.any (fun p => p.1 == ip))).Nodup :=
    hndc.sublist (List.filter_sublist cur)
  by_cases hc : x ∈ cur ∧ x ∉ ns2.map Prod.fst
  · rw [if_pos hc]
    apply List.count_eq_one_of_mem hndf
    refine List.mem_filter.mpr ⟨hc.1, ?_⟩
    have hany : ns2.any (fun p => Prod.fst p == x) = false := by
      rw [List.any_eq_false]
      intro p hp hpx
      exact hc.2 (List.mem_map.mpr ⟨p, hp, beq_iff_eq.mp hpx⟩)
    rw [hany]
    rfl
  · rw [if_neg hc]
    apply List.count_eq_zero_of_not_mem
    intro hmem
    have hf := List.mem_filter.mp hmem
    apply hc
    refine ⟨hf.1, ?_⟩
    intro hx
    obtain ⟨p, hp, hfst⟩ := List.mem_map.mp hx
    have h2 := hf.2
    rw [Bool.not_eq_eq_eq_not, Bool.not_true, List.any_eq_false] at h2
    exact absurd (beq_iff_eq.mpr hfst) (h2 p hp)

/-- Helper: `find?` by key `x` is unaffected by filtering out a different key `k`. -/
theorem find_fst_filter_ne (m : List (String × ServiceMetadata)) (k x : String) (h : x ≠ k) :
    (m.filter (fun p => p.1 != k)).find? (fun p => p.1 == x) =
      m.find? (fun p => p.1 == x) := by
  induction m with
  | nil => rfl
  | cons p t ih =>
    by_cases hpk : p.1 = k
    · have hfilter : ((p :: t).filter (fun q => q.1 != k)) = t.filter (fun q => q.1 != k) := by
        simp [List.filter_cons, hpk]
      have hpx : ¬ ((fun q : String × ServiceMetadata => q.1 == x) p = true) := by
        simp only [hpk, beq_iff_eq]
        exact fun e => h e.symm
      rw [hfilter, ih, List.find?_cons_of_neg (p := fun q : String × ServiceMetadata => q.1 == x) _ hpx]
    · have hfilter : ((p :: t).filter (fun q => q.1 != k)) = p :: t.filter (fun q => q.1 != k) := by
        simp [List.filter_cons, hpk]
      rw [hfilter]
      by_cases hpx : ((fun q : String × ServiceMetadata => q.1 == x) p = true)
      · rw [List.find?_cons_of_pos (p := fun q : String × ServiceMetadata => q.1 == x) _ hpx,
        List.find?_cons_of_pos (p := fun q : String × ServiceMetadata => q.1 == x) _ hpx]
      · rw [List.find?_cons_of_neg (p := fun q : String × ServiceMetadata => q.1 == x) _ hpx,
        List.find?_cons_of_neg (p := fun q : String × ServiceMetadata => q.1 == x) _ hpx, ih]

/-- Helper: `mapGet` at a key other than the one being set is unchanged. -/
theorem mapGet_mapSet_ne (m : List (String × ServiceMetadata)) (k x : String)
    (v : ServiceMetadata) (h : x ≠ k) :
    mapGet (mapSet m k v) x = mapGet m x := by
  unfold mapGet mapSet
  have hk : ¬ ((fun p : String × ServiceMetadata => p.1 == x) (k, v) = true) := by
    simp only [beq_iff_eq]
    exact fun e => h e.symm
  rw [List.find?_cons_of_neg (p := fun p : String × ServiceMetadata => p.1 == x) _ hk,
    find_fst_filter_ne m k x h]

/-- Helper: `mapGet` at a key other than the one being removed is unchanged. -/
theorem mapGet_mapRemove_ne (m : List (String × ServiceMetadata)) (k x : String) (h : x ≠ k) :
    mapGet (mapRemove m k) x = mapGet m x := by
  unfold mapGet mapRemove
  rw [find_fst_filter_ne m k x h]

/-- Helper: a fold of `RegisterService` calls, none of whose identities is `x`,
leaves the metadata stored for `x` unchanged. -/
theorem mapGet_foldl_register_ne (l : List (String × ServiceMetadata)) (s : Registry)
    (x : String) (h : ∀ p ∈ l, (Prod.snd p).IPAddress ≠ x) :
    mapGet ((l.foldl (fun s p => RegisterService s p.2) s).instances) x =
      mapGet s.instances x := by
  induction l generalizing s with
  | nil => rfl
  | cons p t ih =>
    rw [List.foldl_cons, ih _ (fun q hq => h q (List.mem_cons_of_mem p hq))]
    show mapGet (mapSet s.instances p.2.IPAddress p.2) x = mapGet s.instances x
    exact mapGet_mapSet_ne _ _ _ _ (fun e => h p (List.mem_cons_self p t) e.symm)

/-- Helper: a fold of `DeregisterService` calls, none of whose identities is
`x`, leaves the metadata stored for `x` unchanged. -/
theorem mapGet_foldl_deregister_ne (l : List String) (s : Registry) (x : String)
    (h : ∀ ip ∈ l, ip ≠ x) :
    mapGet ((l.foldl (fun s ip => DeregisterService s ip) s).instances) x =
      mapGet s.instances x := by
  induction l generalizing s with
  | nil => rfl
  | cons ip t ih =>
    rw [List.foldl_cons, ih _ (fun q hq => h q (List.mem_cons_of_mem ip hq))]
    show mapGet (mapRemove s.instances ip) x = mapGet s.instances x
    exact mapGet_mapRemove_ne _ _ _ (fun e => h ip (List.mem_cons_self ip t) e.symm)

/-- Helper: `ringGet` finds no owner exactly on the empty ring. -/
theorem ringGet_eq_none_iff (ring : List String) (key : String) :
    ringGet ring key = none ↔ ring = [] := by
  cases ring with
  | nil => simp [ringGet]
  | cons n ns => simp [ringGet]

/-- C7: Register and Deregister are idempotent: deregistering the same identity
twice in a row yields the same registry state (members map and ring) as doing
it once, and registering the same metadata twice yields the same state as
doing it once. -/
theorem register_deregister_idempotent (r : Registry) (m : ServiceMetadata) (x : String) :
    RegisterService (RegisterService r m) m = RegisterService r m ∧
    DeregisterService (DeregisterService r x) x = DeregisterService r x := by
  constructor
  · simp [RegisterService, ringAdd, mapSet, List.filter_filter]
  · simp [DeregisterService, ringRemove, mapRemove, List.filter_filter]

/-- C2: MatchService fails exactly when the ring is empty or when the ring
yields an owner identity with no entry in the metadata map; in particular, on
an empty ring it fails for every key. -/
theorem matchService_error_characterization (r : Registry) (key : String) :
    ((∃ e, MatchService r key = .error e) ↔
      r.ring = [] ∨ ∃ ip, ringGet r.ring key = some ip ∧ mapGet r.instances ip = none)
    ∧ (r.ring = [] → ∃ e, MatchService r key = .error e) := by
  have hmain : (∃ e, MatchService r key = .error e) ↔
      r.ring = [] ∨ ∃ ip, ringGet r.ring key = some ip ∧ mapGet r.instances ip = none := by
    cases hg : ringGet r.ring key with
    | none =>
      have hnil : r.ring = [] := (ringGet_eq_none_iff r.ring key).mp hg
      simp [MatchService, ringGet, hnil]
    | some ip =>
      have hne : r.ring ≠ [] := by
        intro h
        rw [(ringGet_eq_none_iff r.ring key).mpr h] at hg
        exact Option.noConfusion hg
      cases hm : mapGet r.instances ip with
      | none =>
        simp only [MatchService, hg, hne, false_or]
        constructor
        · intro _; exact ⟨ip, rfl, hm⟩
        · intro _
          exact ⟨"could not find service with IP " ++ goFmtMeta emptyServiceMetadata,
            by simp [hm]⟩
      | some s =>
        simp only [MatchService, hg, hne, false_or]
        constructor
        · intro ⟨e, he⟩
          rw [hm] at he
          exact Except.noConfusion he
        · intro ⟨ip2, hip2, hm2⟩
          injection hip2 with h
          subst h
          rw [hm] at hm2
          exact Option.noConfusion hm2
  exact ⟨hmain, fun h => hmain.mpr (Or.inl h)⟩

/-- C4: when the ring yields an owner but the metadata map has no entry for
it, MatchService returns the not-found-class error whose message is built
from the not-yet-assigned result variable: the message is a fixed string
rendering the zero-value metadata (empty address), independent of the
looked-up identity. -/
theorem matchService_missing_metadata_message (r : Registry) (key ip : String)
    (hip : ringGet r.ring key = some ip) (hmiss : mapGet r.instances ip = none) :
    MatchService r key = .error ("could not find service with IP \x7b   \x7d") := by
  simp [MatchService, hip, hmiss, goFmtMeta, emptyServiceMetadata]

/-- Witness for C4 at a concrete registry: ring names `10.0.0.1` but the
metadata map is empty. -/
theorem matchService_missing_metadata_message_witness :
    MatchService { ring := ["10.0.0.1"], instances := [] } "k1" =
      .error ("could not find service with IP \x7b   \x7d") :=
  matchService_missing_metadata_message { ring := ["10.0.0.1"], instances := [] } "k1"
    "10.0.0.1" (by decide) (by decide)

/-- C1: for identity sets A (current, via GetAllServices) and B (newly
observed), one `diffAndUpdateInstances` pass calls RegisterService exactly
once for each identity in B∖A, calls DeregisterService exactly once for each
identity in A∖B, and issues no register or deregister call for any other
identity — in particular none for identities in A∩B. -/
theorem diffAndUpdateInstances_exact_calls (r : Registry)
    (newInstances : List ServiceMetadata) (x : String) :
    registerCallCount (diffAndUpdateInstances r newInstances).2 x =
      (if x ∈ newInstances.map (fun i => i.IPAddress) ∧
          x ∉ (GetAllServices r).map (fun i => i.IPAddress) then 1 else 0) ∧
    deregisterCallCount (diffAndUpdateInstances r newInstances).2 x =
      (if x ∈ (GetAllServices r).map (fun i => i.IPAddress) ∧
          x ∉ newInstances.map (fun i => i.IPAddress) then 1 else 0) := by
  rw [diffAndUpdateInstances_snd]
  have hinv := foldl_mapSet_fst_inv newInstances [] (by simp)
  have hnd := foldl_mapSet_fst_nodup newInstances [] (by simp)
  have hmem : ∀ y, (y ∈ (newInstances.foldl (fun m i => mapSet m i.IPAddress i) []).map Prod.fst
      ↔ y ∈ newInstances.map (fun i => i.IPAddress)) := by
    intro y
    have h2 := foldl_mapSet_fst_mem newInstances [] y
    simpa using h2
  constructor
  · rw [registerCallCount_trace _ _ _ hinv hnd]
    have hiff : (x ∈ (newInstances.foldl (fun m i => mapSet m i.IPAddress i) []).map Prod.fst ∧
        x ∉ ((GetAllServices r).map (fun i => i.IPAddress)).dedup) ↔
        (x ∈ newInstances.map (fun i => i.IPAddress) ∧
         x ∉ (GetAllServices r).map (fun i => i.IPAddress)) := by
      rw [hmem x]
      constructor
      · exact fun hx => ⟨hx.1, fun hmm => hx.2 (List.mem_dedup.mpr hmm)⟩
      · exact fun hx => ⟨hx.1, fun hmm => hx.2 (List.mem_dedup.mp hmm)⟩
    exact if_congr hiff rfl rfl
  · rw [deregisterCallCount_trace _ _ _ (List.nodup_dedup _)]
    have hiff : (x ∈ ((GetAllServices r).map (fun i => i.IPAddress)).dedup ∧
        x ∉ (newInstances.foldl (fun m i => mapSet m i.IPAddress i) []).map Prod.fst) ↔
        (x ∈ (GetAllServices r).map (fun i => i.IPAddress) ∧
         x ∉ newInstances.map (fun i => i.IPAddress)) := by
      rw [hmem x, List.mem_dedup]
    exact if_congr hiff rfl rfl

/-- C9: an identity present both in the registry's current set and in the
newly observed set keeps exactly the metadata already stored in the registry —
even when the newly observed metadata for that identity differs — because the
diff compares identities only. -/
theorem diffAndUpdateInstances_keeps_intersection_metadata (r : Registry)
    (newInstances : List ServiceMetadata) (x : String)
    (hA : x ∈ (GetAllServices r).map (fun i => i.IPAddress))
    (hB : x ∈ newInstances.map (fun i => i.IPAddress)) :
    mapGet ((diffAndUpdateInstances r newInstances).1).instances x =
      mapGet r.instances x := by
  have hinv := foldl_mapSet_fst_inv newInstances [] (by simp)
  rw [diffAndUpdateInstances_fst, mapGet_foldl_deregister_ne, mapGet_foldl_register_ne]
  · intro p hp
    have hf := List.mem_filter.mp hp
    have hp1 : p.1 ∉ ((GetAllServices r).map (fun i => i.IPAddress)).dedup := by
      simpa using hf.2
    rw [← hinv p hf.1]
    intro e
    exact hp1 (by rw [e]; exact List.mem_dedup.mpr hA)
  · intro ip hip
    have hf := List.mem_filter.mp hip
    have h2 := hf.2
    rw [Bool.not_eq_eq_eq_not, Bool.not_true, List.any_eq_false] at h2
    have hxk : x ∈ (newInstances.foldl (fun m i => mapSet m i.IPAddress i) []).map Prod.fst := by
      have h3 := foldl_mapSet_fst_mem newInstances [] x
      simp only [List.map_nil, List.not_mem_nil, false_or] at h3
      exact h3.mpr hB
    intro e
    subst e
    obtain ⟨p, hp, hfst⟩ := List.mem_map.mp hxk
    exact absurd (beq_iff_eq.mpr hfst) (h2 p hp)

/-- Witness for C9 at a concrete input: the identity `10.0.0.1` is both
current and newly observed, with different credentials in the new
observation; its stored metadata is unchanged. -/
theorem diffAndUpdateInstances_keeps_intersection_metadata_witness :
    mapGet ((diffAndUpdateInstances
        { ring := ["10.0.0.1"],
          instances := [("10.0.0.1",
            { Name := "node1", IPAddress := "10.0.0.1",
              AccessKey := "oldAK", SecretKey := "oldSK" })] }
        [{ Name := "node1", IPAddress := "10.0.0.1",
           AccessKey := "newAK", SecretKey := "newSK" }]).1).instances "10.0.0.1" =
      mapGet
        ({ ring := ["10.0.0.1"],
           instances := [("10.0.0.1",
             { Name := "node1", IPAddress := "10.0.0.1",
               AccessKey := "oldAK", SecretKey := "oldSK" })] } : Registry).instances
        "10.0.0.1" :=
  diffAndUpdateInstances_keeps_intersection_metadata
    { ring := ["10.0.0.1"],
      instances := [("10.0.0.1",
        { Name := "node1", IPAddress := "10.0.0.1",
          AccessKey := "oldAK", SecretKey := "oldSK" })] }
    [{ Name := "node1", IPAddress := "10.0.0.1",
       AccessKey := "newAK", SecretKey := "newSK" }]
    "10.0.0.1" (by decide) (by decide)

/-- Helper: a listing that contains an inspect failure makes
`collectAvailableInstances` fail (the source returns on the first failed
inspect, before the diff). -/
theorem collectAvailableInstances_error_of_mem (cs : List (Except String ContainerInfo))
    (e : String) (h : Except.error e ∈ cs) :
    ∃ e2, collectAvailableInstances cs = .error e2 := by
  induction cs with
  | nil => cases h
  | cons c rest ih =>
    cases c with
    | error e3 => exact ⟨e3, rfl⟩
    | ok info =>
      have hmem : Except.error e ∈ rest := by
        rcases List.mem_cons.mp h with h1 | h1
        · exact absurd h1 (by simp)
        · exact h1
      obtain ⟨e2, he2⟩ := ih hmem
      by_cases hs : (info.status != "running") = true
      · exact ⟨e2, by simp only [collectAvailableInstances, if_pos hs]; exact he2⟩
      · by_cases hv : (! isValidServiceMetadata (getServiceMetadataFromContainer info)) = true
        · exact ⟨e2, by
            simp only [collectAvailableInstances, if_neg hs, if_pos hv]
            exact he2⟩
        · refine ⟨e2, ?_⟩
          simp only [collectAvailableInstances, if_neg hs, if_neg hv, he2]
          rfl

/-- C5: a reconciliation pass in which listing the entities fails, or
inspecting any single entity fails, reports an error, performs no
register/deregister call, and returns the registry state exactly as it was
before the pass. -/
theorem refreshInstances_abort_leaves_state (r : Registry)
    (listing : Except String (List (Except String ContainerInfo)))
    (h : (∃ e, listing = .error e) ∨
      ∃ cs e, listing = .ok cs ∧ Except.error e ∈ cs) :
    (refreshInstances r listing).1 = r ∧ (refreshInstances r listing).2.1 = [] ∧
      (refreshInstances r listing).2.2.isSome = true := by
  rcases h with ⟨e, he⟩ | ⟨cs, e, hcs, hmem⟩
  · subst he
    exact ⟨rfl, rfl, rfl⟩
  · subst hcs
    obtain ⟨e2, he2⟩ := collectAvailableInstances_error_of_mem cs e hmem
    simp [refreshInstances, he2]

/-- Witness for C5: one inspect failure on a non-empty registry leaves the
state unchanged, with no calls and an error reported. -/
theorem refreshInstances_abort_leaves_state_witness :
    (refreshInstances
        { ring := ["10.0.0.1"],
          instances := [("10.0.0.1",
            { Name := "node1", IPAddress := "10.0.0.1",
              AccessKey := "ak", SecretKey := "sk" })] }
        (.ok [.error "inspect failed"])).1 =
      { ring := ["10.0.0.1"],
        instances := [("10.0.0.1",
          { Name := "node1", IPAddress := "10.0.0.1",
            AccessKey := "ak", SecretKey := "sk" })] } ∧
    (refreshInstances
        { ring := ["10.0.0.1"],
          instances := [("10.0.0.1",
            { Name := "node1", IPAddress := "10.0.0.1",
              AccessKey := "ak", SecretKey := "sk" })] }
        (.ok [.error "inspect failed"])).2.1 = [] ∧
    (refreshInstances
        { ring := ["10.0.0.1"],
          instances := [("10.0.0.1",
            { Name := "node1", IPAddress := "10.0.0.1",
              AccessKey := "ak", SecretKey := "sk" })] }
        (.ok [.error "inspect failed"])).2.2.isSome = true :=
  refreshInstances_abort_leaves_state _ _
    (Or.inr ⟨[.error "inspect failed"], "inspect failed", rfl, List.mem_cons_self _ _⟩)

/-- C6: under a successful listing in which every inspect succeeds, an entity
contributes to the newly observed set exactly when its status is `running`
and its derived metadata has non-empty identity, access key and secret key;
entities failing either check are skipped and the pass still succeeds. -/
theorem refreshInstances_observed_set (r : Registry) (infos : List ContainerInfo) :
    collectAvailableInstances (infos.map Except.ok) =
      .ok ((infos.filter (fun i => i.status == "running" &&
          isValidServiceMetadata (getServiceMetadataFromContainer i))).map
        getServiceMetadataFromContainer) ∧
    (refreshInstances r (.ok (infos.map Except.ok))).2.2 = none := by
  have hcoll : collectAvailableInstances (infos.map Except.ok) =
      .ok ((infos.filter (fun i => i.status == "running" &&
          isValidServiceMetadata (getServiceMetadataFromContainer i))).map
        getServiceMetadataFromContainer) := by
    induction infos with
    | nil => rfl
    | cons i t ih =>
      by_cases hs : (i.status != "running") = true
      · have hs2 : (i.status == "running") = false := by
          simpa using hs
        simp only [List.map_cons, collectAvailableInstances, if_pos hs, ih,
          List.filter_cons, hs2, Bool.false_and, if_neg]
        simp
      · have hs2 : (i.status == "running") = true := by
          simpa using hs
        by_cases hv : (! isValidServiceMetadata (getServiceMetadataFromContainer i)) = true
        · have hv2 : isValidServiceMetadata (getServiceMetadataFromContainer i) = false := by
            simpa using hv
          simp only [List.map_cons, collectAvailableInstances, if_neg hs, if_pos hv, ih,
            List.filter_cons, hs2, hv2, Bool.true_and]
          simp
        · have hv2 : isValidServiceMetadata (getServiceMetadataFromContainer i) = true := by
            simpa using hv
          simp only [List.map_cons, collectAvailableInstances, if_neg hs, if_neg hv, ih,
            List.filter_cons, hs2, hv2, Bool.true_and, if_pos, List.map_cons]
          rfl
  refine ⟨hcoll, ?_⟩
  simp only [refreshInstances, hcoll]

/-- Attempt budget passed in `getMatchingInstance` (`retry.Attempts(3)`). -/
def retryAttempts : Nat := 3

/-- Delay in milliseconds passed in `getMatchingInstance`
(`retry.Delay(300*time.Millisecond)`). -/
def retryDelayMs : Nat := 300

/-- Model of the external `retry.Do` (avast/retry-go, not part of the
repository), per the spec's contract for the Router's retry policy: run the
attempt function on indices `i, i+1, ...` while attempts remain, return the
first success, sleep the configured delay between consecutive attempts
(each sleep recorded in the returned list), and surface the collected
attempt errors once every attempt has failed. The registry may change
between attempts, so the attempt function takes the attempt index. -/
def retryFrom (f : Nat → Except String ServiceMetadata) (delayMs : Nat) :
    Nat → Nat → Except (List String) ServiceMetadata × List Nat
  | _, 0 => (.error [], [])
  | i, remaining + 1 =>
    match f i with
    | .ok a => (.ok a, [])
    | .error e =>
      if remaining = 0 then (.error [e], [])
      else
        let next := retryFrom f delayMs (i + 1) remaining
        match next.1 with
        | .ok a => (.ok a, delayMs :: next.2)
        | .error es => (.error (e :: es), delayMs :: next.2)

/-- Resolution step of `getMatchingInstance` (`internal/gateway`): retry
`Registry.MatchService` under `retry.Attempts(3)` and
`retry.Delay(300*time.Millisecond)`, wrapping each failure as
`failed to get minio instance for object id: <cause>`. `states i` is the
registry state seen by attempt `i` (the registry is shared and may change
between attempts). -/
def resolveInstance (states : Nat → Registry) (id : String) :
    Except (List String) ServiceMetadata × List Nat :=
  retryFrom (fun i =>
      match MatchService (states i) id with
      | .ok m => .ok m
      | .error e => .error ("failed to get minio instance for object id: " ++ e))
    retryDelayMs 0 retryAttempts

/-- MinioClientConfig models the arguments `getMatchingInstance` passes to
`minio.New`: the endpoint string and the `minio.Options` fields it sets
(static V4 credentials and the `Secure` flag). -/
structure MinioClientConfig where
  endpoint : String
  accessKey : String
  secretKey : String
  sessionToken : String
  secure : Bool
deriving DecidableEq

/-- getMatchingInstance (`internal/gateway`): resolve the instance for the
object id, then build the backend client against `<IPAddress>:9000` with the
instance's static credentials and TLS disabled. Only the object id is an
input — the bucket plays no part in resolution or client construction. -/
def getMatchingInstance (states : Nat → Registry) (id : String) :
    Except (List String) MinioClientConfig × List Nat :=
  let res := resolveInstance states id
  (res.1.map (fun inst =>
    { endpoint := inst.IPAddress ++ ":9000"
      accessKey := inst.AccessKey
      secretKey := inst.SecretKey
      sessionToken := ""
      secure := false }), res.2)

/-- Helper: `retryFrom` returns the result of the first successful attempt. -/
theorem retryFrom_first_success (f : Nat → Except String ServiceMetadata)
    (delayMs : Nat) (n : Nat) :
    ∀ i k m, k < n → f (i + k) = .ok m →
      (∀ j, j < k → ∃ e, f (i + j) = .error e) →
      (retryFrom f delayMs i n).1 = .ok m := by
  induction n with
  | zero => intro i k m hk; exact absurd hk (Nat.not_lt_zero k)
  | succ n ih =>
    intro i k m hk hok hfail
    cases k with
    | zero =>
      rw [Nat.add_zero] at hok
      simp only [retryFrom, hok]
    | succ k =>
      obtain ⟨e0, he0⟩ := hfail 0 (Nat.succ_pos k)
      rw [Nat.add_zero] at he0
      have hk2 : k < n := Nat.lt_of_succ_lt_succ hk
      have hn0 : n ≠ 0 := fun h => absurd (h ▸ hk2) (Nat.not_lt_zero k)
      have hok2 : f (i + 1 + k) = .ok m := by
        have harith : i + 1 + k = i + (k + 1) := by omega
        rw [harith]
        exact hok
      have hfail2 : ∀ j, j < k → ∃ e, f (i + 1 + j) = .error e := by
        intro j hj
        have := hfail (j + 1) (Nat.succ_lt_succ hj)
        rwa [Nat.add_comm j 1, ← Nat.add_assoc] at this
      have hrec := ih (i + 1) k m hk2 hok2 hfail2
      simp only [retryFrom, he0, if_neg hn0]
      rw [hrec]

/-- Helper: `retryFrom` surfaces an error exactly when every attempt in the
budget fails; with a positive budget the error list is non-empty. -/
theorem retryFrom_all_fail (f : Nat → Except String ServiceMetadata)
    (delayMs : Nat) (n : Nat) :
    ∀ i, (∀ k, k < n → ∃ e, f (i + k) = .error e) →
      ∃ es, (retryFrom f delayMs i n).1 = .error es ∧ (0 < n → es ≠ []) := by
  induction n with
  | zero =>
    intro i _
    exact ⟨[], rfl, fun h => absurd h (Nat.lt_irrefl 0)⟩
  | succ n ih =>
    intro i hfail
    obtain ⟨e0, he0⟩ := hfail 0 (Nat.succ_pos n)
    rw [Nat.add_zero] at he0
    by_cases hn0 : n = 0
    · subst hn0
      exact ⟨[e0], by simp [retryFrom, he0], fun _ => by simp⟩
    · have hfail2 : ∀ k, k < n → ∃ e, f (i + 1 + k) = .error e := by
        intro k hk
        have := hfail (k + 1) (Nat.succ_lt_succ hk)
        rwa [Nat.add_comm k 1, ← Nat.add_assoc] at this
      obtain ⟨es, hes, _⟩ := ih (i + 1) hfail2
      refine ⟨e0 :: es, ?_, fun _ => by simp⟩
      simp only [retryFrom, he0, if_neg hn0]
      rw [hes]

/-- Helper: every recorded sleep equals the configured delay, and there is at
most one sleep fewer than the attempt budget. -/
theorem retryFrom_delays (f : Nat → Except String ServiceMetadata)
    (delayMs : Nat) (n : Nat) :
    ∀ i, (∀ d ∈ (retryFrom f delayMs i n).2, d = delayMs) ∧
      (retryFrom f delayMs i n).2.length ≤ n - 1 := by
  induction n with
  | zero =>
    intro i
    exact ⟨fun d hd => absurd hd (List.not_mem_nil d), Nat.le_refl 0⟩
  | succ n ih =>
    intro i
    cases hf : f i with
    | ok a =>
      constructor
      · intro d hd
        simp only [retryFrom, hf] at hd
        exact absurd hd (List.not_mem_nil d)
      · simp only [retryFrom, hf, List.length_nil]
        exact Nat.zero_le _
    | error e =>
      by_cases hn0 : n = 0
      · subst hn0
        constructor
        · intro d hd
          simp [retryFrom, hf] at hd
        · simp [retryFrom, hf]
      · obtain ⟨ihm, ihl⟩ := ih (i + 1)
        have hstep : (retryFrom f delayMs i (n + 1)).2 =
            delayMs :: (retryFrom f delayMs (i + 1) n).2 := by
          simp only [retryFrom, hf, if_neg hn0]
          cases (retryFrom f delayMs (i + 1) n).1 with
          | ok a => rfl
          | error es => rfl
        constructor
        · intro d hd
          rw [hstep] at hd
          rcases List.mem_cons.mp hd with h1 | h1
          · exact h1
          · exact ihm d h1
        · rw [hstep, List.length_cons]
          have hn1 : 1 ≤ n := Nat.one_le_iff_ne_zero.mpr hn0
          omega

/-- C3: resolution calls MatchService under a bounded retry policy of exactly
3 attempts with a 300 ms delay between consecutive attempts; when some
attempt succeeds (all earlier ones having failed) its node metadata is
returned, and only after all attempts have failed is a resolution error
surfaced. -/
theorem getMatchingInstance_retry_policy (states : Nat → Registry) (id : String) :
    retryAttempts = 3 ∧ retryDelayMs = 300 ∧
    (∀ i m, i < retryAttempts → MatchService (states i) id = .ok m →
      (∀ j, j < i → ∃ e, MatchService (states j) id = .error e) →
      (resolveInstance states id).1 = .ok m) ∧
    ((∀ i, i < retryAttempts → ∃ e, MatchService (states i) id = .error e) →
      ∃ es, (resolveInstance states id).1 = .error es ∧ es ≠ []) ∧
    (∀ d ∈ (resolveInstance states id).2, d = retryDelayMs) ∧
    (resolveInstance states id).2.length ≤ retryAttempts - 1 := by
  refine ⟨rfl, rfl, ?_, ?_, ?_, ?_⟩
  · intro i m hi hok hfail
    apply retryFrom_first_success _ retryDelayMs retryAttempts 0 i m hi
    · simp only [Nat.zero_add, hok]
    · intro j hj
      obtain ⟨e, he⟩ := hfail j hj
      exact ⟨"failed to get minio instance for object id: " ++ e, by
        simp only [Nat.zero_add, he]⟩
  · intro hfail
    have hfail2 : ∀ k, k < retryAttempts → ∃ e2,
        (fun i => match MatchService (states i) id with
          | .ok m => Except.ok m
          | .error e => Except.error
              ("failed to get minio instance for object id: " ++ e)) (0 + k) =
          .error e2 := by
      intro k hk
      obtain ⟨e, he⟩ := hfail k hk
      exact ⟨"failed to get minio instance for object id: " ++ e, by
        simp only [Nat.zero_add, he]⟩
    obtain ⟨es, hes, hne⟩ := retryFrom_all_fail
      (fun i => match MatchService (states i) id with
        | .ok m => Except.ok m
        | .error e => Except.error
            ("failed to get minio instance for object id: " ++ e))
      retryDelayMs retryAttempts 0 hfail2
    exact ⟨es, hes, hne (by decide)⟩
  · exact (retryFrom_delays _ retryDelayMs retryAttempts 0).1
  · exact (retryFrom_delays _ retryDelayMs retryAttempts 0).2

/-- Witness for C3: with a stable one-node registry, attempt 0 succeeds and
resolution returns that node's metadata. -/
theorem getMatchingInstance_retry_policy_witness :
    (resolveInstance
        (fun _ => { ring := ["10.0.0.1"],
                    instances := [("10.0.0.1",
                      { Name := "node1", IPAddress := "10.0.0.1",
                        AccessKey := "ak", SecretKey := "sk" })] })
        "obj1").1 =
      .ok { Name := "node1", IPAddress := "10.0.0.1",
            AccessKey := "ak", SecretKey := "sk" } :=
  (getMatchingInstance_retry_policy
      (fun _ => { ring := ["10.0.0.1"],
                  instances := [("10.0.0.1",
                    { Name := "node1", IPAddress := "10.0.0.1",
                      AccessKey := "ak", SecretKey := "sk" })] })
      "obj1").2.2.1 0
    { Name := "node1", IPAddress := "10.0.0.1", AccessKey := "ak", SecretKey := "sk" }
    (by decide) (by rfl) (fun j hj => absurd hj (Nat.not_lt_zero j))

/-- C10: on successful resolution the backend client is constructed against
the endpoint `<resolved IP>:9000`, with the resolved node's access and
secret keys as static credentials and TLS disabled; the configuration
depends only on the resolved metadata — the object id's only influence is
selecting the node, and the bucket is not an input to resolution at all. -/
theorem getMatchingInstance_client_construction (states : Nat → Registry) (id : String)
    (m : ServiceMetadata) (h : (resolveInstance states id).1 = .ok m) :
    (getMatchingInstance states id).1 =
      .ok { endpoint := m.IPAddress ++ ":9000", accessKey := m.AccessKey,
            secretKey := m.SecretKey, sessionToken := "", secure := false } := by
  simp only [getMatchingInstance, h, Except.map]

/-- Witness for C10: a concrete resolution yields the client configuration
`10.0.0.2:9000` with that node's credentials and TLS disabled. -/
theorem getMatchingInstance_client_construction_witness :
    (getMatchingInstance
        (fun _ => { ring := ["10.0.0.2"],
                    instances := [("10.0.0.2",
                      { Name := "node2", IPAddress := "10.0.0.2",
                        AccessKey := "AK2", SecretKey := "SK2" })] })
        "obj2").1 =
      .ok { endpoint := "10.0.0.2:9000", accessKey := "AK2",
            secretKey := "SK2", sessionToken := "", secure := false } := by
  rw [getMatchingInstance_client_construction
      (fun _ => { ring := ["10.0.0.2"],
                  instances := [("10.0.0.2",
                    { Name := "node2", IPAddress := "10.0.0.2",
                      AccessKey := "AK2", SecretKey := "SK2" })] })
      "obj2"
      { Name := "node2", IPAddress := "10.0.0.2", AccessKey := "AK2", SecretKey := "SK2" }
      (by rfl)]
  rfl

/-- Byte length of a string as Go's `len` computes it (UTF-8 byte count). -/
def goStrLen (s : String) : Nat :=
  s.data.foldl (fun n c => n + c.utf8Size) 0

/-- Character class of the regexp `[a-zA-Z0-9]`, by code point. -/
def isAlnumChar (c : Char) : Bool :=
  (97 ≤ c.toNat && c.toNat ≤ 122) || (65 ≤ c.toNat && c.toNat ≤ 90) ||
    (48 ≤ c.toNat && c.toNat ≤ 57)

/-- `MatchString` of the anchored regexp `^[a-zA-Z0-9]+$` used by
`validateID`: the whole string is one or more alphanumeric characters. -/
def isAlphanumeric (s : String) : Bool :=
  ! s.data.isEmpty && s.data.all isAlnumChar

/-- validateID (`internal/app/server.go`): rejects ids longer than 32 bytes
(`len(id) > 32`), then rejects ids not matching `^[a-zA-Z0-9]+$`. -/
def validateID (id : String) : Except String Unit :=
  if goStrLen id > 32 then .error "id is too long"
  else if ! isAlphanumeric id then .error "id contains invalid characters"
  else .ok ()

/-- Helper: an alphanumeric ASCII character occupies one UTF-8 byte. -/
theorem utf8Size_eq_one_of_alnum (c : Char) (h : isAlnumChar c = true) :
    c.utf8Size = 1 := by
  have hn : c.toNat ≤ 127 := by
    unfold isAlnumChar at h
    simp only [Bool.or_eq_true, Bool.and_eq_true, decide_eq_true_eq] at h
    omega
  unfold Char.utf8Size
  have hv : c.val ≤ 0x7F := by
    rw [UInt32.le_def, BitVec.le_def]
    change c.val.toNat ≤ 127 at hn
    simpa using hn
  simp [hv]

/-- Helper: the byte length of an all-alphanumeric character list equals its
character count. -/
theorem foldl_utf8Size_of_alnum (l : List Char) (h : ∀ c ∈ l, isAlnumChar c = true) :
    ∀ a, l.foldl (fun n c => n + c.utf8Size) a = a + l.length := by
  induction l with
  | nil => intro a; simp
  | cons c t ih =>
    intro a
    rw [List.foldl_cons, ih (fun d hd => h d (List.mem_cons_of_mem c hd)),
      utf8Size_eq_one_of_alnum c (h c (List.mem_cons_self c t)), List.length_cons]
    omega

/-- C8: validateID accepts an id exactly when it is 1 to 32 characters long
and consists solely of ASCII letters and digits; in particular any 33-long
id, the empty id, and any id containing a character outside `[a-zA-Z0-9]`
(such as a hyphen or whitespace) is rejected. -/
theorem validateID_ok_iff (id : String) :
    validateID id = .ok () ↔
      (1 ≤ id.length ∧ id.length ≤ 32 ∧ ∀ c ∈ id.data, isAlnumChar c = true) := by
  have hlength : id.length = id.data.length := rfl
  unfold validateID
  constructor
  · intro h
    by_cases h1 : goStrLen id > 32
    · rw [if_pos h1] at h
      exact Except.noConfusion h
    · rw [if_neg h1] at h
      by_cases h2 : (! isAlphanumeric id) = true
      · rw [if_pos h2] at h
        exact Except.noConfusion h
      · have h3 : isAlphanumeric id = true := by
          cases hh : isAlphanumeric id
          · rw [hh] at h2
            exact absurd rfl h2
          · rfl
        unfold isAlphanumeric at h3
        rw [Bool.and_eq_true] at h3
        have hne : id.data ≠ [] := by
          intro he
          rw [he] at h3
          simp at h3
        have hall : ∀ c ∈ id.data, isAlnumChar c = true := by
          have h4 := h3.2
          rw [List.all_eq_true] at h4
          exact h4
        have hlen : goStrLen id = id.length := by
          unfold goStrLen
          have h5 := foldl_utf8Size_of_alnum id.data hall 0
          rw [h5, Nat.zero_add, hlength]
        refine ⟨?_, by omega, hall⟩
        rw [hlength]
        exact List.length_pos.mpr hne
  · rintro ⟨h1, h2, hall⟩
    have hlen : goStrLen id = id.length := by
      unfold goStrLen
      have h5 := foldl_utf8Size_of_alnum id.data hall 0
      rw [h5, Nat.zero_add, hlength]
    have hne : id.data ≠ [] := by
      intro he
      rw [hlength, he] at h1
      exact absurd h1 (by simp)
    have hanum : isAlphanumeric id = true := by
      unfold isAlphanumeric
      rw [Bool.and_eq_true]
      refine ⟨?_, by rw [List.all_eq_true]; exact hall⟩
      simp [List.isEmpty_iff, hne]
    rw [if_neg (by omega), if_neg (by simp [hanum])]

/-- Witness for C8 applied at a concrete id: `abc123` is accepted. -/
theorem validateID_ok_iff_witness : validateID "abc123" = .ok () :=
  (validateID_ok_iff "abc123").mpr (by decide)

/-- Witness for C7 at a concrete registry and identity. -/
theorem register_deregister_idempotent_witness :
    RegisterService (RegisterService { ring := ["10.0.0.8"], instances := [] }
        { Name := "n9", IPAddress := "10.0.0.9", AccessKey := "a", SecretKey := "s" })
      { Name := "n9", IPAddress := "10.0.0.9", AccessKey := "a", SecretKey := "s" } =
      RegisterService { ring := ["10.0.0.8"], instances := [] }
        { Name := "n9", IPAddress := "10.0.0.9", AccessKey := "a", SecretKey := "s" } ∧
    DeregisterService (DeregisterService { ring := ["10.0.0.8"], instances := [] }
        "10.0.0.8") "10.0.0.8" =
      DeregisterService { ring := ["10.0.0.8"], instances := [] } "10.0.0.8" :=
  register_deregister_idempotent { ring := ["10.0.0.8"], instances := [] }
    { Name := "n9", IPAddress := "10.0.0.9", AccessKey := "a", SecretKey := "s" }
    "10.0.0.8"

/-- Witness for C2: on the empty registry every key fails to match. -/
theorem matchService_error_characterization_witness :
    ∃ e, MatchService { ring := [], instances := [] } "anykey" = .error e :=
  (matchService_error_characterization { ring := [], instances := [] } "anykey").2 rfl

/-- Witness for C1 at a concrete input: a single newly observed identity on an
empty registry is registered exactly once. -/
theorem diffAndUpdateInstances_exact_calls_witness :
    registerCallCount (diffAndUpdateInstances { ring := [], instances := [] }
        [{ Name := "n3", IPAddress := "10.0.0.3", AccessKey := "a", SecretKey := "s" }]).2
      "10.0.0.3" =
      (if "10.0.0.3" ∈ ([{ Name := "n3", IPAddress := "10.0.0.3",
                           AccessKey := "a", SecretKey := "s" }] : List ServiceMetadata).map
            (fun i => i.IPAddress) ∧
          "10.0.0.3" ∉ (GetAllServices { ring := [], instances := [] }).map
            (fun i => i.IPAddress) then 1 else 0) :=
  (diffAndUpdateInstances_exact_calls { ring := [], instances := [] }
    [{ Name := "n3", IPAddress := "10.0.0.3", AccessKey := "a", SecretKey := "s" }]
    "10.0.0.3").1
